import Mathlib

/-!
Shallow embedding of `compare-davidjones-and-iconic.py` (price-comparison
pipeline between two retail sites) and verification of its specification.

Python numbers (floats) are modelled by `ℚ`; Python `None` by `Option.none`;
Python exceptions by `Except PyErr`.  Regular-expression searches from the
source are hand-compiled to leftmost-match scanners with the same greedy
semantics as Python's `re` module on the patterns that appear in the source.
-/

namespace DJPM

/-- Python exception kinds that the embedded code can raise. -/
inductive PyErr where
  | typeError
  | attributeError
  | keyError
  | nameError
  | valueError
  | runtimeError
  deriving DecidableEq, Repr

/-- Python truthiness of an optional number: `None` and `0.0` are falsy. -/
def truthy (o : Option ℚ) : Bool :=
  match o with
  | none => false
  | some q => q ≠ 0

/-- Value of an optional number, defaulting to 0 (only used under `truthy`). -/
def optV (o : Option ℚ) : ℚ := o.getD 0

/-- Python `a or b` on optional numbers (truthiness-based). -/
def pyOr (a b : Option ℚ) : Option ℚ := if truthy a then a else b

/-- Decide whether the first list is a prefix of the second. -/
def isPrefixL : List Char → List Char → Bool
  | [], _ => true
  | _ :: _, [] => false
  | a :: as, b :: bs => a = b && isPrefixL as bs

/-- Decide whether `needle` occurs as a contiguous sublist of `hay`. -/
def hasSubL (needle : List Char) : List Char → Bool
  | [] => isPrefixL needle []
  | c :: cs => isPrefixL needle (c :: cs) || hasSubL needle cs

/-- Python `needle in hay` on strings. -/
def sContains (hay needle : String) : Bool := hasSubL needle.toList hay.toList

/-- Python `s.startswith(p)`. -/
def sStarts (s p : String) : Bool := isPrefixL p.toList s.toList

/-- Numeric value of a list of decimal digit characters. -/
def digitsVal (cs : List Char) : ℕ :=
  cs.foldl (fun n c => 10 * n + (c.toNat - 48)) 0

/-- Value of an unsigned decimal numeral `digits [ '.' digits ]`. -/
def parseUF (cs : List Char) : ℚ :=
  let ip := cs.takeWhile (fun c => c ≠ '.')
  let fp := (cs.dropWhile (fun c => c ≠ '.')).drop 1
  (digitsVal ip : ℚ) + (digitsVal fp : ℚ) / (10 ^ fp.length)

/-- Python `float()` on a well-formed numeral with optional leading minus. -/
def parseFloat (cs : List Char) : ℚ :=
  match cs with
  | '-' :: rest => -(parseUF rest)
  | _ => parseUF cs

/-- Take greedily up to `n` characters satisfying `p`; return them and the rest. -/
def takeUpTo : ℕ → (Char → Bool) → List Char → List Char × List Char
  | 0, _, cs => ([], cs)
  | _ + 1, _, [] => ([], [])
  | n + 1, p, c :: cs =>
    if p c then
      let t := takeUpTo n p cs
      (c :: t.1, t.2)
    else ([], c :: cs)

/-- Greedy match of the regex piece `(?:,\d\x7b3\x7d)*` from `get_num`. -/
def commaGroups : List Char → List Char × List Char
  | ',' :: a :: b :: c :: rest =>
    if a.isDigit && b.isDigit && c.isDigit then
      let g := commaGroups rest
      (',' :: a :: b :: c :: g.1, g.2)
    else ([], ',' :: a :: b :: c :: rest)
  | cs => ([], cs)

/-- Greedy match of the optional fraction `(?:\.\d+)?` from `get_num`. -/
def fractionPart (cs : List Char) : List Char :=
  match cs with
  | '.' :: rest =>
    let ds := rest.takeWhile Char.isDigit
    if ds.isEmpty then [] else '.' :: ds
  | _ => []

/-- Match the unsigned body of the `get_num` number regex at this position. -/
def matchNumBody (cs : List Char) : Option (List Char) :=
  match cs with
  | c :: _ =>
    if c.isDigit then
      let t1 := takeUpTo 3 Char.isDigit cs
      let t2 := commaGroups t1.2
      some (t1.1 ++ t2.1 ++ fractionPart t2.2)
    else none
  | [] => none

/-- Match the full `get_num` number regex (with optional minus) at this position. -/
def matchNumAt (cs : List Char) : Option (List Char) :=
  match cs with
  | '-' :: rest => (matchNumBody rest).map (fun m => '-' :: m)
  | _ => matchNumBody cs

/-- Leftmost search for the number regex of `get_num`
(`-?\d\x7b1,3\x7d(?:,\d\x7b3\x7d)*(?:\.\d+)?|-?\d+(?:\.\d+)?`). -/
def searchNum : List Char → Option (List Char)
  | [] => none
  | c :: cs =>
    match matchNumAt (c :: cs) with
    | some m => some m
    | none => searchNum cs

/-- Body of `get_num` before the enclosing `try`/`except`: `re.search` on
`None` raises `TypeError`; `m.group(0)` on a failed search raises
`AttributeError`; a successful match is comma-stripped and parsed. -/
def get_num_body (t : Option String) : Except PyErr ℚ :=
  match t with
  | none => .error .typeError
  | some s =>
    match searchNum s.toList with
    | none => .error .attributeError
    | some m => .ok (parseFloat (m.filter (fun c => c ≠ ',')))

/-- The `get_num` function: the whole body is wrapped in `try`/`except
Exception`, so every exception becomes `None`. -/
def get_num (t : Option String) : Option ℚ :=
  match get_num_body t with
  | .ok v => some v
  | .error _ => none

/-- Floor of a rational as an integer. -/
def qfloor (q : ℚ) : ℤ := Int.fdiv q.num q.den

/-- Round to the nearest integer, ties to even (Python `round` semantics). -/
def round_half_even (x : ℚ) : ℤ :=
  let f := qfloor x
  let r := x - (f : ℚ)
  if r < 1 / 2 then f
  else if 1 / 2 < r then f + 1
  else if f % 2 = 0 then f else f + 1

/-- Python `round(x, 2)`. -/
def round2 (x : ℚ) : ℚ := ((round_half_even (x * 100) : ℤ) : ℚ) / 100

/-- Word character for the regex word-boundary `\b` (ASCII `\w`). -/
def wordChar (c : Char) : Bool := c.isAlphanum || c = '_'

/-- Word boundary holds after a word character iff the rest starts with a
non-word character or is the end of the string. -/
def boundaryOk (cs : List Char) : Bool :=
  match cs with
  | [] => true
  | c :: _ => !wordChar c

/-- Total price per unit from integer and fraction digit lists. -/
def fracVal (ip f : List Char) : ℚ :=
  (digitsVal ip : ℚ) + (digitsVal f : ℚ) / (10 ^ f.length)

/-- Match the `BUY` offer regex
`\bBUY\s+(\d+)\s+FOR\s*\$?\s*([0-9]+(?:\.[0-9]\x7b1,2\x7d)?)\b` at a
position whose preceding word boundary the caller has checked.  The
fraction part backtracks exactly as Python's engine does: two fraction
digits, then one, then none, each followed by a `\b` check. -/
def matchBuyAt (cs : List Char) : Option (ℕ × ℚ) :=
  if isPrefixL ['B', 'U', 'Y'] cs then
    let r0 := cs.drop 3
    if (r0.takeWhile Char.isWhitespace).isEmpty then none else
    let r1 := r0.dropWhile Char.isWhitespace
    let qd := r1.takeWhile Char.isDigit
    if qd.isEmpty then none else
    let r2 := r1.dropWhile Char.isDigit
    if (r2.takeWhile Char.isWhitespace).isEmpty then none else
    let r3 := r2.dropWhile Char.isWhitespace
    if isPrefixL ['F', 'O', 'R'] r3 then
      let r4 := (r3.drop 3).dropWhile Char.isWhitespace
      let r5 := match r4 with
        | '$' :: t => t.dropWhile Char.isWhitespace
        | other => other
      let td := r5.takeWhile Char.isDigit
      if td.isEmpty then none else
      let r6 := r5.dropWhile Char.isDigit
      let qty := digitsVal qd
      match r6 with
      | '.' :: a :: b :: r7 =>
        if a.isDigit && b.isDigit then
          if boundaryOk r7 then some (qty, fracVal td [a, b])
          else some (qty, (digitsVal td : ℚ))
        else if a.isDigit then
          if !wordChar b then some (qty, fracVal td [a])
          else some (qty, (digitsVal td : ℚ))
        else some (qty, (digitsVal td : ℚ))
      | '.' :: a :: [] =>
        if a.isDigit then some (qty, fracVal td [a])
        else some (qty, (digitsVal td : ℚ))
      | '.' :: [] => some (qty, (digitsVal td : ℚ))
      | [] => some (qty, (digitsVal td : ℚ))
      | x :: _ => if !wordChar x then some (qty, (digitsVal td : ℚ)) else none
    else none
  else none

/-- Scan for the `BUY` regex, tracking the preceding character for `\b`. -/
def searchBuyAux : Option Char → List Char → Option (ℕ × ℚ)
  | _, [] => none
  | prev, c :: cs =>
    let bOk := match prev with
      | none => true
      | some p => !wordChar p
    match (if bOk then matchBuyAt (c :: cs) else none) with
    | some r => some r
    | none => searchBuyAux (some c) cs

/-- Leftmost search for the `BUY <qty> FOR $<amount>` pattern. -/
def searchBuy (s : String) : Option (ℕ × ℚ) := searchBuyAux none s.toList

/-- The `apply_offer_discount` function.  `price_plain >= 600` with
`price_plain = None` raises a `TypeError` in Python, hence the `Except`
result; all other branches are pure. -/
def apply_offer_discount (price_plain price_now : Option ℚ) (offer_text : String) :
    Except PyErr (Option ℚ) :=
  if offer_text = "" then .ok none else
  match get_num (some offer_text) with
  | none => .ok none
  | some discount =>
    if discount = 0 then .ok none else
    if sStarts offer_text "EXTRA" && sContains offer_text "%" then
      .ok (if truthy price_now then
             some (round2 (optV price_now * (1 - discount / 100)))
           else if truthy price_plain then
             some (round2 (optV price_plain * (1 - discount / 100)))
           else none)
    else if sStarts offer_text "SAVE" && sContains offer_text "%" then
      .ok (if truthy price_plain then
             some (round2 (optV price_plain * (1 - discount / 100)))
           else none)
    else if sStarts offer_text "SAVE" && sContains offer_text "$" then
      .ok (if truthy price_plain then
             some (round2 (optV price_plain - discount))
           else none)
    else if sStarts offer_text "BUY" then
      .ok (match searchBuy offer_text with
           | some qt => if 0 < qt.1 then some (round2 (qt.2 / (qt.1 : ℚ))) else none
           | none => none)
    else if sContains offer_text "GIFT CARD" then
      match price_plain with
      | none => .error .typeError
      | some p =>
        .ok (if 600 ≤ p then some (p - 150)
             else if 300 ≤ p then some (p - 50)
             else if 150 ≤ p then some (p - 20)
             else none)
    else .ok none

/-- Match one labelled price pattern (`now\s+\$([0-9,]+\.?\d*)` and friends)
at this position, returning the captured group.  The scan runs over the
lowercased text, which realizes `re.IGNORECASE` for these patterns. -/
def matchPriceGroupAt (lit : List Char) (cs : List Char) : Option (List Char) :=
  if isPrefixL lit cs then
    let r0 := cs.drop lit.length
    if (r0.takeWhile Char.isWhitespace).isEmpty then none else
    let r1 := r0.dropWhile Char.isWhitespace
    match r1 with
    | '$' :: r2 =>
      let g1 := r2.takeWhile (fun c => c.isDigit || c = ',')
      if g1.isEmpty then none else
      let r3 := r2.dropWhile (fun c => c.isDigit || c = ',')
      match r3 with
      | '.' :: r4 => some (g1 ++ '.' :: r4.takeWhile Char.isDigit)
      | _ => some g1
    | _ => none
  else none

/-- Leftmost search for a labelled price pattern. -/
def searchPrice (lit : List Char) : List Char → Option (List Char)
  | [] => none
  | c :: cs =>
    match matchPriceGroupAt lit (c :: cs) with
    | some g => some g
    | none => searchPrice lit cs

/-- Python `float(group.replace(",", ""))` on a captured price group: the
group can consist solely of commas (or a bare dot), in which case `float`
raises `ValueError`. -/
def floatOfGroup (g : List Char) : Except PyErr ℚ :=
  let cleaned := g.filter (fun c => c ≠ ',')
  if cleaned.any Char.isDigit then .ok (parseFloat cleaned) else .error .valueError

/-- Price parsing from the accessibility text in `get_product_info`
(lines 240-258 of the source): returns `(price_plain, price_now)`.  The
`now` capture is converted to a float before the `was` capture, matching
the statement order of the source. -/
def parse_price_text (acc : Option String) : Except PyErr (Option ℚ × Option ℚ) :=
  match acc with
  | none => .ok (none, none)
  | some raw =>
    let low := raw.trim.toLower.toList
    if hasSubL ['i', 't', ' ', 'w', 'a', 's'] low then
      match searchPrice ['n', 'o', 'w'] low with
      | none =>
        match searchPrice ['w', 'a', 's'] low with
        | none => .ok (none, none)
        | some g => (floatOfGroup g).map (fun v => (some v, none))
      | some gn =>
        match floatOfGroup gn with
        | .error e => .error e
        | .ok vn =>
          match searchPrice ['w', 'a', 's'] low with
          | none => .ok (none, some vn)
          | some g => (floatOfGroup g).map (fun v => (some v, some vn))
    else
      match searchPrice ['p', 'r', 'i', 'c', 'e'] low with
      | none => .ok (none, none)
      | some g => (floatOfGroup g).map (fun v => (some v, none))

/-- Minimum of a list of rationals, `None` when empty (Python `min`). -/
def omin (l : List ℚ) : Option ℚ :=
  match l with
  | [] => none
  | x :: xs => some (xs.foldl min x)

/-- Maximum of a list of rationals, `None` when empty (Python `max`). -/
def omax (l : List ℚ) : Option ℚ :=
  match l with
  | [] => none
  | x :: xs => some (xs.foldl max x)

/-- Leftmost search for the product-id regex `-(\d+)(?:\?|$)`: a hyphen,
one or more digits taken greedily, then a question mark or end of string. -/
def searchProdId : List Char → Option (List Char)
  | [] => none
  | '-' :: rest =>
    let ds := rest.takeWhile Char.isDigit
    if ds.isEmpty then searchProdId rest
    else
      match rest.dropWhile Char.isDigit with
      | [] => some ds
      | '?' :: _ => some ds
      | _ => searchProdId rest
  | _ :: rest => searchProdId rest

/-- Python `urljoin` against the base `https://www.davidjones.com`. -/
def urljoin_dj (href : String) : String :=
  if sStarts href "http://" || sStarts href "https://" then href
  else if sStarts href "/" then "https://www.davidjones.com" ++ href
  else "https://www.davidjones.com/" ++ href

/-- A search-result node as consumed by `get_product_info`: the text of the
brand and name elements when present, the review-widget element with its
url data attribute (outer `none` models a missing element, inner `none` a
missing attribute), and the price-root element with its accessibility-span
text. -/
structure Item where
  brand : Option String
  name : Option String
  yotpoElem : Option (Option String)
  priceRoot : Option (Option String)

/-- The tuple returned by `get_product_info`. -/
structure ProductInfo where
  title : String
  price : Option ℚ
  was : Option ℚ
  link : String
  productId : String
  deriving DecidableEq, Repr

/-- The `get_product_info` function.  Failure modes mirror the source:
a missing review widget raises `TypeError` (subscripting `None`), a missing
url attribute raises `KeyError`, a link without a trailing numeric segment
raises `AttributeError` (`id_match.group(1)` with `id_match = None`), and a
missing price-root element raises `AttributeError` as well. -/
def get_product_info (it : Item) : Except PyErr ProductInfo :=
  let brand := (it.brand.map String.trim).getD ""
  let name := (it.name.map String.trim).getD ""
  let title := (brand ++ " " ++ name).trim
  match it.yotpoElem with
  | none => .error .typeError
  | some none => .error .keyError
  | some (some href) =>
    let link := urljoin_dj href
    match searchProdId link.toList with
    | none => .error .attributeError
    | some pid =>
      match it.priceRoot with
      | none => .error .attributeError
      | some acc =>
        match parse_price_text acc with
        | .error e => .error e
        | .ok pv =>
          let cands := [pv.1, pv.2].filterMap id
          .ok ⟨title, omin cands, omax cands, link, String.mk pid⟩

/-- Candidate price values parsed from an item's accessibility text, in the
order `(price_plain, price_now)` used by the source. -/
def candidatesOf (it : Item) : List ℚ :=
  match it.priceRoot with
  | none => []
  | some acc =>
    match parse_price_text acc with
    | .error _ => []
    | .ok pv => [pv.1, pv.2].filterMap id

/-- Token characters of `_tokens`: the regex `[a-z0-9]+` over lowercased text. -/
def tokChar (c : Char) : Bool := ('a' ≤ c && c ≤ 'z') || ('0' ≤ c && c ≤ '9')

/-- Collect maximal runs of token characters (`re.findall` of `[a-z0-9]+`). -/
def tokenAux : List Char → List Char → List String
  | acc, [] => if acc.isEmpty then [] else [String.mk acc.reverse]
  | acc, c :: cs =>
    if tokChar c then tokenAux (c :: acc) cs
    else if acc.isEmpty then tokenAux [] cs
    else String.mk acc.reverse :: tokenAux [] cs

/-- The `_tokens` function: the set of alphanumeric tokens of the lowercased
title. -/
def _tokens (t : String) : Finset String := (tokenAux [] t.toLower.toList).toFinset

/-- The `_jaccard` function: 0 when either set is empty, otherwise
intersection size over union size (with the source's redundant guard
against a zero-sized union). -/
def _jaccard (a b : Finset String) : ℚ :=
  if a = ∅ ∨ b = ∅ then 0
  else if (a ∪ b).card = 0 then 0
  else ((a ∩ b).card : ℚ) / ((a ∪ b).card : ℚ)

/-- A product anchor from a listing page of the catalog site: the optional
text of the two price spans, the brand and name spans, and the href. -/
structure RawItem where
  priceFinalText : Option String
  priceOriginalText : Option String
  brand : Option String
  name : Option String
  href : String

/-- A row of the candidate table built by `scrape_iconic`. -/
structure Row where
  title : String
  price : ℚ
  was : ℚ
  diff : ℚ
  link : String
  deriving DecidableEq, Repr

/-- Python `urljoin` against the base `https://www.theiconic.com.au`. -/
def urljoin_ic (href : String) : String :=
  if sStarts href "http://" || sStarts href "https://" then href
  else if sStarts href "/" then "https://www.theiconic.com.au" ++ href
  else "https://www.theiconic.com.au/" ++ href

/-- Per-anchor row construction of `scrape_iconic` (lines 189-209): price
texts go through `get_num` (with `None` passed when a span is missing),
both prices must be truthy, and the discount must reach the threshold. -/
def mkRow (a : RawItem) (threshold : ℚ) : Option Row :=
  let pf := get_num a.priceFinalText
  let po := get_num a.priceOriginalText
  if truthy pf && truthy po then
    let f := optV pf
    let o := optV po
    let d := o - f
    if threshold ≤ d then
      let brand_text := ((a.brand.map String.trim).getD "").trim
      let name := ((a.name.map String.trim).getD "").trim
      let title := (brand_text ++ " " ++ name).trim
      let href := a.href.trim
      let link := if href ≠ "" then urljoin_ic href else ""
      some ⟨title, f, o, d, link⟩
    else none
  else none

/-- Pages consumed by the pagination loop: every page up to (excluding) the
first page with no product anchors, at which the loop breaks. -/
def pagesUntilEmpty : List (List RawItem) → List (List RawItem)
  | [] => []
  | p :: ps => if p.isEmpty then [] else p :: pagesUntilEmpty ps

/-- Descending-by-`diff` comparison used to model
`sort_values("diff", ascending=False)`. -/
def rowGE (x y : Row) : Prop := y.diff ≤ x.diff

instance : DecidableRel rowGE := fun x y => inferInstanceAs (Decidable (y.diff ≤ x.diff))

instance : IsTotal Row rowGE := ⟨fun a b => le_total b.diff a.diff⟩

instance : IsTrans Row rowGE := ⟨fun _ _ _ h1 h2 => le_trans h2 h1⟩

/-- The `scrape_iconic` function over a modelled sequence of fetched pages:
paginate until the first empty page, build rows, and sort by `diff`
descending. -/
def scrape_iconic (pages : List (List RawItem)) (threshold : ℚ) : List Row :=
  let rows := ((pagesUntilEmpty pages).map
    (fun pg => pg.filterMap (fun a => mkRow a threshold))).flatten
  List.insertionSort rowGE rows

/-- A candidate record handed to `compare_search` (one row of the candidate
table, via `to_dict("records")`). -/
structure Candidate where
  title : String
  price : ℚ
  was : ℚ
  link : String
  deriving DecidableEq, Repr

/-- An element of the special-offers response: its id and short description
(the source reads both with `.get`, defaulting the description to `""`). -/
structure Offer where
  oid : String
  short : String

/-- A cross-site comparison record appended by `compare_search`. -/
structure MatchRec where
  title_dj : String
  title_pm : String
  price_diff : ℚ
  price_dj : ℚ
  price_pm : ℚ
  link_dj : String
  link_pm : String
  deriving DecidableEq, Repr

/-- Offer reconciliation for one candidate (lines 355-373): everything is
inside a `try`, so a failed offers request, as well as any exception raised
by `apply_offer_discount`, is caught and leaves the extracted prices
unchanged.  A truthy discounted price triggers the min/max recomputation
over `(was or price, price, price_offer)`. -/
def offer_adjust (pd : ProductInfo) (offersRes : Except Unit (List Offer)) :
    Option ℚ × Option ℚ :=
  match offersRes with
  | .error _ => (pd.price, pd.was)
  | .ok odata =>
    let offer_text := ((odata.find? (fun o => o.oid = pd.productId)).map
      (fun o => o.short)).getD ""
    if offer_text = "" then (pd.price, pd.was)
    else
      match apply_offer_discount (pyOr pd.was pd.price) pd.price offer_text with
      | .error _ => (pd.price, pd.was)
      | .ok po =>
        if truthy po then
          let cands := [pyOr pd.was pd.price, pd.price, po].filterMap id
          (omin cands, omax cands)
        else (pd.price, pd.was)

/-- Emission decision for one candidate (lines 375-390): the record is
appended only when the matched `was` equals the candidate's `was` (Python
`None == float` is `False`), the title token-set Jaccard similarity reaches
the threshold, and the price difference exceeds 100.  Computing
`price - price_pm` with `price = None` would raise a `TypeError`. -/
def compare_step (c : Candidate) (title : String) (price was : Option ℚ)
    (link : String) (th : ℚ) : Except PyErr (Option MatchRec) :=
  if was = some c.was ∧ _jaccard (_tokens title) (_tokens c.title) ≥ th then
    match price with
    | none => .error .typeError
    | some p =>
      let pdiff := p - c.price
      if pdiff > 100 then .ok (some ⟨title, c.title, pdiff, p, c.price, link, c.link⟩)
      else .ok none
  else .ok none

/-- Descending-by-`price_diff` comparison used to model
`sort_values("price_diff", ascending=False)`. -/
def recGE (x y : MatchRec) : Prop := y.price_diff ≤ x.price_diff

instance : DecidableRel recGE := fun x y =>
  inferInstanceAs (Decidable (y.price_diff ≤ x.price_diff))

instance : IsTotal MatchRec recGE := ⟨fun a b => le_total b.price_diff a.price_diff⟩

instance : IsTrans MatchRec recGE := ⟨fun _ _ _ h1 h2 => le_trans h2 h1⟩

/-- The per-candidate loop of `compare_search`.  `soupVar` models the local
variable `soup`: when the search request raises, the `except` arm logs and
breaks out of the retry loop without assigning `soup`, so the subsequent
`soup.select(...)` raises `NameError` if `soup` was never assigned, and
otherwise silently reuses the page fetched for an earlier candidate. -/
def compare_search_aux (search : ℕ → Except Unit (List Item))
    (offers : ℕ → Except Unit (List Offer)) (th : ℚ) :
    List (ℕ × Candidate) → Option (List Item) → List MatchRec →
    Except PyErr (List MatchRec)
  | [], _, acc => .ok acc
  | (idx, c) :: rest, soupVar, acc =>
    let soupVar' := match search idx with
      | .ok s => some s
      | .error _ => soupVar
    match soupVar' with
    | none => .error .nameError
    | some items =>
      match items with
      | [] => compare_search_aux search offers th rest soupVar' acc
      | item :: _ =>
        match get_product_info item with
        | .error e => .error e
        | .ok pd =>
          let pw := offer_adjust pd (offers idx)
          match compare_step c pd.title pw.1 pw.2 pd.link th with
          | .error e => .error e
          | .ok none => compare_search_aux search offers th rest soupVar' acc
          | .ok (some r) => compare_search_aux search offers th rest soupVar' (acc ++ [r])

/-- The `compare_search` function over modelled fetch oracles: `search idx`
is the result of requesting search results for the `idx`-th candidate, and
`offers idx` the result of the special-offers request.  The collected
matches are sorted by `price_diff` descending. -/
def compare_search (cands : List Candidate) (search : ℕ → Except Unit (List Item))
    (offers : ℕ → Except Unit (List Offer)) (th : ℚ) : Except PyErr (List MatchRec) :=
  (compare_search_aux search offers th cands.enum none []).map
    (List.insertionSort recGE)

/-! ### Concrete inputs used in the theorems below -/

/-- A search-result item whose accessibility text is the sale pattern with
the current price first. -/
def itemNowWas : Item :=
  ⟨some "BrandX", some "NameY", some (some "/brandx-namey-12345"),
   some (some "Price is now $220.00, it was $443.00")⟩

/-- The same item with the two price values swapped in the text. -/
def itemWasNow : Item :=
  ⟨some "BrandX", some "NameY", some (some "/brandx-namey-12345"),
   some (some "Price is now $443.00, it was $220.00")⟩

/-- A search-result item whose canonical link has no trailing numeric
segment. -/
def itemNoId : Item :=
  ⟨some "B", some "N", some (some "/some-product"), some (some "Price $399.00")⟩

/-- A one-page catalog with a single discounted product anchor. -/
def pagesOne : List (List RawItem) :=
  [[⟨some "$300.00", some "$500.00", some "B", some "N", "/x"⟩]]

/-- The row that `scrape_iconic pagesOne` produces. -/
def rowOne : Row := ⟨"B N", 300, 500, 200, "https://www.theiconic.com.au/x"⟩

/-- A one-page catalog whose single anchor is dearer now than it was. -/
def pagesNeg : List (List RawItem) :=
  [[⟨some "$100.00", some "$80.00", some "B", some "N", "/x"⟩]]

/-- A candidate whose matched product satisfies all three emission gates. -/
def candA : Candidate := ⟨"BrandX NameY", 100, 443, "https://ic/x"⟩

/-- The comparison record emitted for `candA` at prices 300 versus 100. -/
def recA : MatchRec :=
  ⟨"BrandX NameY", "BrandX NameY", 200, 300, 100, "L", "https://ic/x"⟩

/-- A candidate whose title shares half of its token set with `"a b"`. -/
def candB : Candidate := ⟨"a", 100, 443, "l"⟩

/-- The product detail extracted from `itemNowWas`. -/
def pdNowWas : ProductInfo :=
  ⟨"BrandX NameY", some 220, some 443,
   "https://www.davidjones.com/brandx-namey-12345", "12345"⟩

/-- The row produced by `scrape_iconic pagesNeg (-50)`: the original price
is below the current one, so the discount is negative. -/
def rowNeg : Row := ⟨"B N", 100, 80, -20, "https://www.theiconic.com.au/x"⟩

/-! ### Helper lemmas -/

/-- The guard of `_jaccard` is redundant over `ℚ`: the function always
equals intersection size over union size. -/
lemma _jaccard_eq_div (a b : Finset String) :
    _jaccard a b = ((a ∩ b).card : ℚ) / ((a ∪ b).card : ℚ) := by
  unfold _jaccard
  split_ifs with h1 h2
  · rcases h1 with h | h <;> subst h <;> simp
  · rw [h2]
    simp
  · rfl

/-- A row built by `mkRow` records `diff = was - price` and meets the
threshold. -/
lemma mkRow_spec (a : RawItem) (th : ℚ) (r : Row) (h : mkRow a th = some r) :
    th ≤ r.diff ∧ r.diff = r.was - r.price := by
  unfold mkRow at h
  dsimp only at h
  split at h
  · split at h
    · injection h with h'
      subst h'
      exact ⟨by assumption, rfl⟩
    · cases h
  · cases h

/-- Every row of `scrape_iconic` comes from `mkRow`. -/
lemma scrape_iconic_mem (pages : List (List RawItem)) (th : ℚ) (r : Row)
    (h : r ∈ scrape_iconic pages th) : ∃ a, mkRow a th = some r := by
  unfold scrape_iconic at h
  rw [List.mem_insertionSort, List.mem_flatten] at h
  obtain ⟨l, hl, hrl⟩ := h
  rw [List.mem_map] at hl
  obtain ⟨pg, -, rfl⟩ := hl
  rw [List.mem_filterMap] at hrl
  obtain ⟨a, -, ha⟩ := hrl
  exact ⟨a, ha⟩

/-! ### Claims -/

/-- C1: the claim asserts `apply_offer_discount(700, None, "GIFT CARD
OFFER") = 550.0`, but the guard `if not discount: return None` runs before
the `GIFT CARD` branch and `"GIFT CARD OFFER"` contains no extractable
number, so the call returns absent, not 550. -/
theorem c1_gift_card_counterexample :
    apply_offer_discount (some 700) none "GIFT CARD OFFER" = .ok none ∧
    (Except.ok none : Except PyErr (Option ℚ)) ≠ .ok (some 550) := by
  refine ⟨rfl, ?_⟩
  intro h
  injection h with h'
  cases h'

/-- C1 (amended): for offer texts containing "GIFT CARD", not starting with
EXTRA, SAVE or BUY, and containing an extractable nonzero numeric value,
`apply_offer_discount` applies the tiered flat discount off `price_plain`
(at least 600 gives a 150 reduction, at least 300 gives 50, at least 150
gives 20, otherwise absent); any offer text with no extractable numeric
value returns absent. -/
theorem c1_gift_card_tiers :
    (∀ (p : ℚ) (pn : Option ℚ) (t : String) (d : ℚ),
      sContains t "GIFT CARD" = true →
      sStarts t "EXTRA" = false → sStarts t "SAVE" = false →
      sStarts t "BUY" = false →
      get_num (some t) = some d → d ≠ 0 →
      apply_offer_discount (some p) pn t =
        .ok (if 600 ≤ p then some (p - 150)
             else if 300 ≤ p then some (p - 50)
             else if 150 ≤ p then some (p - 20)
             else none)) ∧
    (∀ (pp pn : Option ℚ) (t : String),
      get_num (some t) = none → apply_offer_discount pp pn t = .ok none) := by
  constructor
  · intro p pn t d hg hE hS hB hnum hd
    have ht : ¬(t = "") := by
      intro h
      subst h
      exact absurd hg (by decide)
    unfold apply_offer_discount
    rw [if_neg ht, hnum]
    simp [hd, hE, hS, hB, hg]
  · intro pp pn t h
    unfold apply_offer_discount
    by_cases ht : t = ""
    · rw [if_pos ht]
    · rw [if_neg ht, h]

/-- C1 witness: a gift-card offer that does carry a number hits the top
tier. -/
theorem c1_gift_card_tiers_witness :
    apply_offer_discount (some 700) none "GIFT CARD 50" = .ok (some 550) := by
  have h := c1_gift_card_tiers.1 700 none "GIFT CARD 50" 50
    (by decide) (by decide) (by decide) (by decide)
    (by with_unfolding_all rfl) (by norm_num)
  rw [h]
  norm_num

/-- C4: `apply_offer_discount` dispatches on the leading keyword and symbol
with first-match-wins precedence: `EXTRA 20% OFF` takes 20% off the current
price 90 giving 72, `SAVE $20` takes a flat 20 off the plain price 100
giving 80, `BUY 2 FOR $100` yields the per-unit price 50, and the empty
offer text is absent. -/
theorem c4_offer_dispatch_examples :
    apply_offer_discount (some 100) (some 90) "EXTRA 20% OFF" = .ok (some 72) ∧
    apply_offer_discount (some 100) none "SAVE $20" = .ok (some 80) ∧
    apply_offer_discount none none "BUY 2 FOR $100" = .ok (some 50) ∧
    apply_offer_discount (some 100) (some 90) "" = .ok none := by
  exact ⟨by with_unfolding_all rfl, by with_unfolding_all rfl,
    by with_unfolding_all rfl, rfl⟩

/-- C6: `_jaccard` equals the Jaccard index (intersection size over union
size), is symmetric, is 0 whenever either set is empty, and evaluates to
2/3 on the example token sets. -/
theorem c6_jaccard_properties :
    (∀ a b : Finset String,
      _jaccard a b = ((a ∩ b).card : ℚ) / ((a ∪ b).card : ℚ)) ∧
    (∀ a b : Finset String, _jaccard a b = _jaccard b a) ∧
    (∀ a b : Finset String, a = ∅ ∨ b = ∅ → _jaccard a b = 0) ∧
    _jaccard {"red", "dress"} {"red", "dress", "silk"} = 2 / 3 := by
  refine ⟨_jaccard_eq_div, ?_, ?_, by with_unfolding_all rfl⟩
  · intro a b
    rw [_jaccard_eq_div, _jaccard_eq_div, Finset.inter_comm, Finset.union_comm]
  · intro a b h
    unfold _jaccard
    rw [if_pos h]

/-- C6 witness: the empty set against a singleton has similarity 0. -/
theorem c6_jaccard_witness : _jaccard ∅ {"a"} = 0 :=
  c6_jaccard_properties.2.2.1 ∅ {"a"} (Or.inl rfl)

/-- C10: `get_num` is total at its public interface: every exception of the
unguarded body (a `None` argument, a text with no number) is absorbed by
the `try`/`except` and becomes `None`, successful parses come back as
values, and the listing scraper's `mkRow` passes `None` straight through
when a price span is missing, yielding no row. -/
theorem c10_get_num_total :
    (∀ (t : Option String) (e : PyErr),
      get_num_body t = .error e → get_num t = none) ∧
    (∀ (t : Option String) (v : ℚ),
      get_num_body t = .ok v → get_num t = some v) ∧
    get_num none = none ∧
    get_num (some "no numbers here") = none ∧
    get_num (some "-42") = some (-42) ∧
    (∀ (b n : Option String) (h : String) (th : ℚ),
      mkRow ⟨none, none, b, n, h⟩ th = none) := by
  refine ⟨?_, ?_, rfl, by with_unfolding_all rfl, by with_unfolding_all rfl, ?_⟩
  · intro t e h
    unfold get_num
    rw [h]
  · intro t v h
    unfold get_num
    rw [h]
  · intro b n h th
    simp [mkRow, get_num, get_num_body, truthy]

/-- C10 witness: both exception paths of the body are mapped to `None`. -/
theorem c10_get_num_total_witness :
    get_num none = none ∧ get_num (some "abc") = none :=
  ⟨c10_get_num_total.1 none .typeError rfl,
   c10_get_num_total.1 (some "abc") .attributeError rfl⟩

/-- C2: a fetch error for a candidate is caught and logged, but the code
then falls through to `items = soup.select(...)` with the local variable
`soup` never assigned, so a failure on the very first candidate raises
`NameError` and aborts the whole batch instead of continuing with the next
candidate. -/
theorem c2_fetch_error_aborts_batch :
    compare_search [⟨"a", 1, 2, "l"⟩] (fun _ => .error ()) (fun _ => .ok [])
      (9 / 10) = .error .nameError := rfl

/-- C3: for a search-result item whose canonical link has no trailing
numeric segment the product-id regex finds nothing, and
`id_match.group(1)` then raises `AttributeError` instead of representing
the identifier as absent and skipping the offer lookup. -/
theorem c3_missing_product_id_raises :
    searchProdId (urljoin_dj "/some-product").toList = none ∧
    get_product_info itemNoId = .error .attributeError := ⟨rfl, rfl⟩

/-- C5: whenever `get_product_info` succeeds, the returned `price` and
`was` are the minimum and maximum of the price values parsed from the
accessibility text (0, 1 or 2 values), so the result is independent of the
order the values appear in the source text; in particular both orderings
of "now $220.00" and "was $443.00" yield price 220 and was 443. -/
theorem c5_price_min_was_max :
    (∀ (it : Item) (pd : ProductInfo), get_product_info it = .ok pd →
      pd.price = omin (candidatesOf it) ∧ pd.was = omax (candidatesOf it)) ∧
    (get_product_info itemNowWas).map (fun pd => (pd.price, pd.was)) =
      .ok (some 220, some 443) ∧
    (get_product_info itemWasNow).map (fun pd => (pd.price, pd.was)) =
      .ok (some 220, some 443) := by
  refine ⟨?_, by with_unfolding_all rfl, by with_unfolding_all rfl⟩
  intro it pd h
  obtain ⟨b, n, y, pr⟩ := it
  unfold get_product_info at h
  unfold candidatesOf
  dsimp only at h ⊢
  split at h
  · cases h
  · cases h
  · split at h
    · cases h
    · split at h
      · cases h
      · split at h
        · cases h
        · injection h with h'
          subst h'
          exact ⟨rfl, rfl⟩

/-- C5 witness: the extractor applied to the concrete sale-price item
returns exactly the min/max of the parsed candidates. -/
theorem c5_price_min_was_max_witness :
    pdNowWas.price = omin (candidatesOf itemNowWas) ∧
    pdNowWas.was = omax (candidatesOf itemNowWas) :=
  c5_price_min_was_max.1 itemNowWas pdNowWas (by with_unfolding_all rfl)

/-- C7: every row produced by `scrape_iconic` carries both prices (the row
type is only inhabited by price-bearing anchors) and satisfies
`was - price >= minDiscount`, with `diff` recording that difference, and
the result is ordered by `diff` descending. -/
theorem c7_scrape_filter_and_order :
    (∀ (pages : List (List RawItem)) (th : ℚ) (r : Row),
      r ∈ scrape_iconic pages th →
      th ≤ r.was - r.price ∧ r.diff = r.was - r.price) ∧
    (∀ (pages : List (List RawItem)) (th : ℚ),
      List.Sorted rowGE (scrape_iconic pages th)) := by
  constructor
  · intro pages th r hr
    obtain ⟨a, ha⟩ := scrape_iconic_mem pages th r hr
    obtain ⟨h1, h2⟩ := mkRow_spec a th r ha
    exact ⟨h2 ▸ h1, h2⟩
  · intro pages th
    unfold scrape_iconic
    exact List.sorted_insertionSort rowGE _

/-- C7 witness: the single row of the concrete one-page catalog meets the
threshold and records the price difference. -/
theorem c7_scrape_filter_and_order_witness :
    (100 : ℚ) ≤ rowOne.was - rowOne.price ∧
    rowOne.diff = rowOne.was - rowOne.price :=
  c7_scrape_filter_and_order.1 pagesOne 100 rowOne
    (by rw [show scrape_iconic pagesOne 100 = [rowOne] from by with_unfolding_all rfl]
        exact List.mem_singleton_self rowOne)

/-- C8: the claim asserts `diff >= 0` for all threshold values, but the
filter only requires `diff >= threshold`; with the configurable threshold
set to -50 an anchor priced 100 against an original price of 80 passes the
filter and yields a row with `diff = -20 < 0`. -/
theorem c8_negative_threshold_counterexample :
    scrape_iconic pagesNeg (-50) = [rowNeg] ∧ rowNeg.diff < 0 := by
  exact ⟨by with_unfolding_all rfl, by norm_num [rowNeg]⟩

/-- C8 (amended): for every category page sequence and every nonnegative
configured minimum-discount threshold, every catalog item produced by
`scrape_iconic` satisfies `diff >= 0` (equivalently `price <= was`); a
negative threshold can admit rows with negative `diff`. -/
theorem c8_diff_nonneg :
    ∀ (pages : List (List RawItem)) (th : ℚ) (r : Row),
      0 ≤ th → r ∈ scrape_iconic pages th → 0 ≤ r.diff := by
  intro pages th r hth hr
  obtain ⟨a, ha⟩ := scrape_iconic_mem pages th r hr
  exact le_trans hth (mkRow_spec a th r ha).1

/-- C8 witness: the concrete one-page catalog at threshold 100 yields a row
with nonnegative `diff`. -/
theorem c8_diff_nonneg_witness : 0 ≤ rowOne.diff :=
  c8_diff_nonneg pagesOne 100 rowOne (by norm_num)
    (by rw [show scrape_iconic pagesOne 100 = [rowOne] from by with_unfolding_all rfl]
        exact List.mem_singleton_self rowOne)

/-- C9: `compare_search` emits a comparison record for a candidate only
when all three gates hold: the matched `was` equals the candidate's `was`
exactly, the title token-set Jaccard similarity is at least the threshold,
and `price_diff` (matched price minus candidate price) is strictly greater
than 100; at the default threshold 0.9 a pair with Jaccard similarity 0.5
is never emitted regardless of price gap. -/
theorem c9_emission_gates :
    (∀ (c : Candidate) (title : String) (price was : Option ℚ) (link : String)
      (th : ℚ) (r : MatchRec),
      compare_step c title price was link th = .ok (some r) →
      was = some c.was ∧ _jaccard (_tokens title) (_tokens c.title) ≥ th ∧
      r.price_diff > 100 ∧ price = some r.price_dj ∧
      r.price_diff = r.price_dj - c.price) ∧
    (∀ (c : Candidate) (title : String) (price was : Option ℚ) (link : String),
      _jaccard (_tokens title) (_tokens c.title) = 1 / 2 →
      compare_step c title price was link (9 / 10) = .ok none) := by
  constructor
  · intro c title price was link th r h
    unfold compare_step at h
    split at h
    · rename_i hgate
      rcases price with _ | p
      · cases h
      · dsimp only at h
        split at h
        · rename_i hdiff
          injection h with h'
          injection h' with h''
          subst h''
          exact ⟨hgate.1, hgate.2, hdiff, rfl, rfl⟩
        · injection h with h'
          cases h'
    · injection h with h'
      cases h'
  · intro c title price was link hj
    unfold compare_step
    have hng : ¬(was = some c.was ∧
        _jaccard (_tokens title) (_tokens c.title) ≥ 9 / 10) := by
      rintro ⟨-, hge⟩
      rw [hj] at hge
      norm_num at hge
    rw [if_neg hng]

/-- C9 witness: a concrete candidate passing all three gates produces a
record with those properties, and a concrete half-overlapping title pair
is rejected at the default threshold. -/
theorem c9_emission_gates_witness :
    (some (443 : ℚ) = some candA.was ∧
      _jaccard (_tokens "BrandX NameY") (_tokens candA.title) ≥ 9 / 10 ∧
      recA.price_diff > 100 ∧ some (300 : ℚ) = some recA.price_dj ∧
      recA.price_diff = recA.price_dj - candA.price) ∧
    compare_step candB "a b" (some 1) (some 2) "l" (9 / 10) = .ok none :=
  ⟨c9_emission_gates.1 candA "BrandX NameY" (some 300) (some 443) "L" (9 / 10)
      recA (by with_unfolding_all rfl),
   c9_emission_gates.2 candB "a b" (some 1) (some 2) "l"
      (by with_unfolding_all rfl)⟩

end DJPM
